import Mathlib

/-!
Shallow embedding of the `cacheproxy` package of TomWu-Alchemi/project-framework:
the Stored Value (`StringView`), the Redis backing-store adapter (`RedisCache`),
the request-coalescing fetch (`CacheProxy.getResource` over `singleflight.Group`)
and the proxy orchestration (`CacheProxy.GetHit`, `Set`, `Remove`).

Time instants and durations are modelled as `Int` (the zero instant plays the
role of Go's zero `time.Time`). Outcomes of the external collaborators (the
Redis client and the origin getter) are supplied as explicit parameters, so
every code path of the proxy is a pure function of its inputs. A Go panic is a
distinct outcome (`PanicOr.panic`), not an error return. Detached goroutines are
reified as `BgTask` values together with an interpreter `runBgTask`; the value a
caller receives never depends on the interpreter's environment, mirroring
fire-and-forget semantics.
-/

namespace CacheProxySpec

/-- Error values that flow through the proxy. `fastRequery` is the package's
sentinel `fastRequeryErr`; `invalidKey` is `ErrInvalidKey`; `msg` covers
arbitrary store/origin failures. -/
inductive Err where
  | fastRequery
  | invalidKey
  | msg (s : String)
deriving DecidableEq, Repr

/-- The result of running a piece of Go code that may panic: either a returned
value or a panic with a message. -/
inductive PanicOr (α : Type) where
  | panic (m : String)
  | ret (a : α)
deriving DecidableEq, Repr

/-- `StringView` from the source: one cached entry. `Ctime = 0` models Go's
zero `time.Time` (never written). -/
structure StringView where
  Ctime : Int
  NeedFastRequery : Bool
  IsNil : Bool
  Data : String
deriving DecidableEq, Repr

/-- `StringView.IsExpire` from the source, with `time.Now()` made an explicit
parameter `now`: false when `Ctime` is the zero time, otherwise choose the
fast offset iff `NeedFastRequery`, and report true iff `Ctime + offset` is
before `now`. -/
def StringView.IsExpire (v : StringView) (normalOffset fastOffset now : Int) : Bool :=
  if v.Ctime = 0 then false
  else
    let offset := if v.NeedFastRequery then fastOffset else normalOffset
    if v.Ctime + offset < now then true else false

/-- `CacheContext` from the source: the per-call refresh policy. -/
structure CacheContext where
  NeedForceRefresh : Bool
  NeedCacheRefresh : Bool
  RefreshOffset : Int
  FastRefreshOffset : Int
  ExpiredTime : Int
  EmptyExpiredTime : Int
deriving DecidableEq, Repr

instance {ε α : Type} [DecidableEq ε] [DecidableEq α] : DecidableEq (Except ε α)
  | .ok a, .ok b => decidable_of_iff (a = b) (by simp)
  | .ok _, .error _ => .isFalse (by intro h; cases h)
  | .error _, .ok _ => .isFalse (by intro h; cases h)
  | .error a, .error b => decidable_of_iff (a = b) (by simp)

/-- Outcome of the Redis client's `GET` for a key: `redisNil` (key absent),
a transport `failure`, or a present raw value whose JSON decoding yields
`decoded` (decoding may itself fail). -/
inductive RedisReply where
  | redisNil
  | failure (e : Err)
  | value (decoded : Except Err StringView)
deriving DecidableEq, Repr

/-- `RedisCache.Get` from the source. The source's `len(key) < 0` guard is kept
verbatim (it can never fire). `redis.Nil` becomes an `IsNil` view with
`found = false` and no error; a decode failure is returned as an error. -/
def redisCacheGet (key : String) (reply : RedisReply) : Except Err (StringView × Bool) :=
  if key.length < 0 then .error .invalidKey
  else
    match reply with
    | .redisNil => .ok (⟨0, false, true, ""⟩, false)
    | .failure e => .error e
    | .value (.error e) => .error e
    | .value (.ok sv) => .ok (sv, true)

/-- One `SET` issued (or attempted) against the backing store: the key, the
stored view, the TTL passed to Redis, and whether the call ran under a
detached `context.Background()` rather than the caller's context. -/
structure WriteOp where
  key : String
  value : StringView
  ttl : Int
  detachedCtx : Bool
deriving DecidableEq, Repr

/-- `RedisCache.Set` from the source: an empty key is rejected with
`ErrInvalidKey`; otherwise the TTL is `emptyExpiredTime` when the payload is
empty and `expiredTime` otherwise, the `SET` is issued, and its outcome
(`setErr`, supplied by the environment) is returned. The attempted write is
reported alongside the error. -/
def redisCacheSet (key : String) (sv : StringView) (expiredTime emptyExpiredTime : Int)
    (detached : Bool) (setErr : Option Err) : Option Err × Option WriteOp :=
  if key.length ≤ 0 then (some .invalidKey, none)
  else
    let expired := if sv.Data.length = 0 then emptyExpiredTime else expiredTime
    (setErr, some ⟨key, sv, expired, detached⟩)

/-- Outcome of the Redis client's `DEL`: the number of keys actually removed
(0 for a non-existent key), or a transport failure. -/
inductive DelReply where
  | ok (removed : Nat)
  | failure (e : Err)
deriving DecidableEq, Repr

/-- `RedisCache.Remove` from the source: empty key rejected with
`ErrInvalidKey`, otherwise the `DEL` outcome's error (if any) is returned. -/
def redisCacheRemove (key : String) (reply : DelReply) : Option Err :=
  if key.length ≤ 0 then some .invalidKey
  else
    match reply with
    | .ok _ => none
    | .failure e => some e

/-- `CacheProxy.setData` from the source: build a `StringView` with
`Ctime = time.Now()` (here `now`), the given fast-requery flag, `IsNil = false`
and the payload, then call `RedisCache.Set`. -/
def setData (now : Int) (setErr : Option Err) (c : CacheContext) (key data : String)
    (needFastRequery : Bool) (detached : Bool) : Option Err × Option WriteOp :=
  redisCacheSet key ⟨now, needFastRequery, false, data⟩ c.ExpiredTime c.EmptyExpiredTime
    detached setErr

/-- The closure passed to `singleflight.Group.Do` inside
`CacheProxy.getResource`: on getter error return `(nil, getErr)`; on success
return the data, with the sentinel `fastRequeryErr` as the error when the
getter set the fast-requery flag. `g` is the outcome of the single execution
of `getter.Get`. -/
def coalesceFn (g : Except Err (String × Bool)) : Option String × Option Err :=
  match g with
  | .error e => (none, some e)
  | .ok (data, fast) => if fast then (some data, some .fastRequery) else (some data, none)

/-- The runtime message of the panic raised by the unchecked type assertion
`val.(string)` when `val` is nil. -/
def assertionPanicMsg : String := "interface conversion: interface is nil, not string"

/-- `CacheProxy.getResource` from the source, after `singleflight.Do` has
delivered `coalesceFn g`. The unchecked assertion `res := val.(string)` panics
whenever `val` is nil, i.e. whenever the getter returned an error — before the
`errors.Is(err, fastRequeryErr)` test is reached. The source's
`return "", false, err` branch is kept although it is unreachable for this
closure. -/
def getResource (g : Except Err (String × Bool)) : PanicOr (String × Bool × Option Err) :=
  let vr := coalesceFn g
  match vr.1 with
  | none => .panic assertionPanicMsg
  | some res =>
    match vr.2 with
    | some e =>
        if e = .fastRequery then .ret (res, true, none)
        else .ret ("", false, some e)
    | none => .ret (res, false, none)

/-- A detached goroutine spawned by `GetHit`: the miss-path asynchronous
write-back, or the stale-hit background refresh. -/
inductive BgTask where
  | write (c : CacheContext) (key data : String) (needFastRequery : Bool)
  | refresh (c : CacheContext) (key : String)
deriving DecidableEq, Repr

/-- Everything the outcomes of the external collaborators contribute to one
operation: the store-read reply, the single origin-getter execution's result,
the store-write outcome, and the current time. -/
structure Env where
  reply : RedisReply
  getterResult : Except Err (String × Bool)
  setErr : Option Err
  now : Int
deriving Repr

/-- The observable behaviour of one `GetHit` call: the value returned to the
caller (or a panic), how many store reads and synchronous origin executions
happened, the synchronous store writes, and the detached tasks spawned. -/
structure GetHitOut where
  result : PanicOr (String × Bool × Option Err)
  storeReads : Nat
  getterCalls : Nat
  syncWrites : List WriteOp
  bgTasks : List BgTask
deriving DecidableEq, Repr

/-- `CacheProxy.GetHit` from the source. Empty key: `("", false, nil)` at once.
Force refresh: fetch through the coalescer, write synchronously under
`context.Background()`, return fetch/write errors, else the fresh data with
`wasHit = false`. Otherwise read the store; on read error propagate; on miss
fetch synchronously, spawn a detached write-back, return the data with
`wasHit = false`; on hit, when `NeedCacheRefresh` and the view is expired spawn
a detached refresh, and in every hit case return the cached data with
`wasHit = true`. -/
def GetHit (env : Env) (c : CacheContext) (key : String) : GetHitOut :=
  if key.length = 0 then
    ⟨.ret ("", false, none), 0, 0, [], []⟩
  else if c.NeedForceRefresh then
    match getResource env.getterResult with
    | .panic m => ⟨.panic m, 0, 1, [], []⟩
    | .ret (_, _, some e) => ⟨.ret ("", false, some e), 0, 1, [], []⟩
    | .ret (data, fast, none) =>
      let w := setData env.now env.setErr c key data fast true
      match w.1 with
      | some e => ⟨.ret ("", false, some e), 0, 1, w.2.toList, []⟩
      | none => ⟨.ret (data, false, none), 0, 1, w.2.toList, []⟩
  else
    match redisCacheGet key env.reply with
    | .error e => ⟨.ret ("", false, some e), 1, 0, [], []⟩
    | .ok (sv, exist) =>
      if !exist then
        match getResource env.getterResult with
        | .panic m => ⟨.panic m, 1, 1, [], []⟩
        | .ret (_, _, some e) => ⟨.ret ("", false, some e), 1, 1, [], []⟩
        | .ret (data, fast, none) =>
          ⟨.ret (data, false, none), 1, 1, [], [.write c key data fast]⟩
      else if c.NeedCacheRefresh then
        if !(sv.IsExpire c.RefreshOffset c.FastRefreshOffset env.now) then
          ⟨.ret (sv.Data, true, none), 1, 0, [], []⟩
        else
          ⟨.ret (sv.Data, true, none), 1, 0, [], [.refresh c key]⟩
      else
        ⟨.ret (sv.Data, true, none), 1, 0, [], []⟩

/-- What one detached goroutine did when interpreted in environment `envBg`:
whether it panicked (an unrecovered goroutine panic terminates the Go
process), what it logged, and the store write it attempted. It exposes no
channel back to any caller. -/
structure BgRun where
  panicked : Bool
  logs : List String
  write : Option WriteOp
deriving DecidableEq, Repr

/-- Interpreter for the detached goroutines of `GetHit`. The miss-path write
logs `setData` failures. The refresh goroutine re-fetches through the
coalescer — panicking like any caller when the getter errors — then calls
`setData` and logs either failure. -/
def runBgTask (envBg : Env) (t : BgTask) : BgRun :=
  match t with
  | .write c key data fast =>
    let w := setData envBg.now envBg.setErr c key data fast true
    match w.1 with
    | some _ => ⟨false, ["cacheProxy setErr"], w.2⟩
    | none => ⟨false, [], w.2⟩
  | .refresh c key =>
    match getResource envBg.getterResult with
    | .panic _ => ⟨true, [], none⟩
    | .ret (data, fast, e?) =>
      let logs1 : List String :=
        match e? with
        | some _ => ["cacheProxy refresh getResource err"]
        | none => []
      let w := setData envBg.now envBg.setErr c key data fast true
      match w.1 with
      | some _ => ⟨false, logs1 ++ ["cacheProxy refresh setData err"], w.2⟩
      | none => ⟨false, logs1, w.2⟩

/-- All store writes one `GetHit` call gives rise to: the synchronous ones plus
those performed by its detached tasks when run in `envBg`. -/
def GetHitOut.allWrites (o : GetHitOut) (envBg : Env) : List WriteOp :=
  o.syncWrites ++ (o.bgTasks.map (runBgTask envBg)).filterMap (fun r => r.write)

/-- `CacheProxy.Set` from the source: write through `setData` under the
caller's context with the fast-requery flag cleared. -/
def proxySet (env : Env) (c : CacheContext) (key value : String) :
    Option Err × Option WriteOp :=
  setData env.now env.setErr c key value false false

/-- `CacheProxy.Remove` from the source: delegate to `RedisCache.Remove`. -/
def proxyRemove (reply : DelReply) (key : String) : Option Err :=
  redisCacheRemove key reply

/-!
Operational model of `singleflight.Group.Do` for one key, used for the
coalescing property. An `arrive` event is a caller entering
`CacheProxy.getResource` for the key; `complete` is the single in-flight
execution of the origin getter finishing, at which point `Do` hands the shared
`(val, err)` pair to every waiter and each waiter finishes `getResource` on it.
`g` is the outcome of that single getter execution. -/

/-- An event in a per-key trace: a caller arrives, or the in-flight origin
execution completes. -/
inductive SfEvent where
  | arrive (caller : Nat)
  | complete
deriving DecidableEq, Repr

/-- State of a per-key trace: the waiters of the in-flight call (if any), how
many times the origin getter has been executed, and, per caller, the value its
`getResource` call returned (or the panic it raised). -/
structure SfRun where
  inflight : Option (List Nat)
  originCalls : Nat
  delivered : List (Nat × PanicOr (String × Bool × Option Err))
deriving DecidableEq, Repr

/-- One step: an arriving caller starts the origin execution when none is in
flight (this is the only place the getter is invoked), otherwise joins the
waiters; on completion every waiter finishes `getResource` on the shared
outcome and the key becomes free. -/
def sfStep (g : Except Err (String × Bool)) (r : SfRun) (e : SfEvent) : SfRun :=
  match e with
  | .arrive c =>
    match r.inflight with
    | none => { r with inflight := some [c], originCalls := r.originCalls + 1 }
    | some l => { r with inflight := some (l ++ [c]) }
  | .complete =>
    match r.inflight with
    | none => r
    | some l =>
      ⟨none, r.originCalls, r.delivered ++ l.map (fun c => (c, getResource g))⟩

/-- Run a trace from the idle per-key state. -/
def sfRunTrace (g : Except Err (String × Bool)) (es : List SfEvent) : SfRun :=
  es.foldl (sfStep g) ⟨none, 0, []⟩

/-- The trace of a cache stampede on a cold key: the callers `cs` all arrive
while the first one's origin execution is still in flight, then it
completes. -/
def stampedeTrace (cs : List Nat) : List SfEvent :=
  cs.map .arrive ++ [.complete]

/-! Helper lemmas: evaluation of `getResource` and of each `GetHit` path. -/

lemma getResource_ok (d : String) (fast : Bool) :
    getResource (.ok (d, fast)) = .ret (d, fast, none) := by
  cases fast <;> rfl

lemma getResource_error (e : Err) :
    getResource (.error e) = .panic assertionPanicMsg := rfl

lemma redisCacheGet_nil (key : String) :
    redisCacheGet key .redisNil = .ok (⟨0, false, true, ""⟩, false) := by
  simp [redisCacheGet]

lemma redisCacheSet_nonempty (key : String) (sv : StringView) (e1 e2 : Int)
    (detached : Bool) (setErr : Option Err) (hk : key.length ≠ 0) :
    redisCacheSet key sv e1 e2 detached setErr =
      (setErr, some ⟨key, sv, (if sv.Data.length = 0 then e2 else e1), detached⟩) := by
  simp [redisCacheSet, Nat.le_zero, hk]

lemma GetHit_empty (env : Env) (c : CacheContext) :
    GetHit env c "" = ⟨.ret ("", false, none), 0, 0, [], []⟩ := by
  simp [GetHit]

lemma GetHit_force (env : Env) (c : CacheContext) (key : String)
    (hk : key.length ≠ 0) (hf : c.NeedForceRefresh = true) :
    GetHit env c key =
      match getResource env.getterResult with
      | .panic m => ⟨.panic m, 0, 1, [], []⟩
      | .ret (_, _, some e) => ⟨.ret ("", false, some e), 0, 1, [], []⟩
      | .ret (data, fast, none) =>
        match env.setErr with
        | some e =>
          ⟨.ret ("", false, some e), 0, 1,
            [⟨key, ⟨env.now, fast, false, data⟩,
              (if data.length = 0 then c.EmptyExpiredTime else c.ExpiredTime), true⟩], []⟩
        | none =>
          ⟨.ret (data, false, none), 0, 1,
            [⟨key, ⟨env.now, fast, false, data⟩,
              (if data.length = 0 then c.EmptyExpiredTime else c.ExpiredTime), true⟩], []⟩ := by
  simp only [GetHit, hf, if_neg hk, if_pos rfl, setData,
    redisCacheSet_nonempty _ _ _ _ _ _ hk]
  cases hg : getResource env.getterResult with
  | panic m => rfl
  | ret a =>
    obtain ⟨d, fast, e?⟩ := a
    cases e? with
    | none => cases env.setErr <;> rfl
    | some e => rfl

lemma GetHit_readErr (env : Env) (c : CacheContext) (key : String) (e : Err)
    (hk : key.length ≠ 0) (hf : c.NeedForceRefresh = false)
    (hr : redisCacheGet key env.reply = .error e) :
    GetHit env c key = ⟨.ret ("", false, some e), 1, 0, [], []⟩ := by
  simp [GetHit, hf, if_neg hk, hr]

lemma GetHit_miss (env : Env) (c : CacheContext) (key : String)
    (hk : key.length ≠ 0) (hf : c.NeedForceRefresh = false)
    (hr : env.reply = .redisNil) :
    GetHit env c key =
      match getResource env.getterResult with
      | .panic m => ⟨.panic m, 1, 1, [], []⟩
      | .ret (_, _, some e) => ⟨.ret ("", false, some e), 1, 1, [], []⟩
      | .ret (data, fast, none) =>
        ⟨.ret (data, false, none), 1, 1, [], [.write c key data fast]⟩ := by
  simp only [GetHit, hf, if_neg hk, hr, redisCacheGet_nil, Bool.not_false, if_pos rfl]
  simp

lemma GetHit_hit (env : Env) (c : CacheContext) (key : String) (sv : StringView)
    (hk : key.length ≠ 0) (hf : c.NeedForceRefresh = false)
    (hr : env.reply = .value (.ok sv)) :
    GetHit env c key =
      if c.NeedCacheRefresh then
        if sv.IsExpire c.RefreshOffset c.FastRefreshOffset env.now then
          ⟨.ret (sv.Data, true, none), 1, 0, [], [.refresh c key]⟩
        else
          ⟨.ret (sv.Data, true, none), 1, 0, [], []⟩
      else
        ⟨.ret (sv.Data, true, none), 1, 0, [], []⟩ := by
  simp only [GetHit, hf, if_neg hk, hr, redisCacheGet]
  cases hc : c.NeedCacheRefresh with
  | false => simp
  | true =>
    cases he : sv.IsExpire c.RefreshOffset c.FastRefreshOffset env.now <;> simp [he]

lemma runBgTask_write_eval (envBg : Env) (c : CacheContext) (key data : String)
    (fast : Bool) (hk : key.length ≠ 0) :
    runBgTask envBg (.write c key data fast) =
      ⟨false,
       (match envBg.setErr with | some _ => ["cacheProxy setErr"] | none => []),
       some ⟨key, ⟨envBg.now, fast, false, data⟩,
         (if data.length = 0 then c.EmptyExpiredTime else c.ExpiredTime), true⟩⟩ := by
  simp only [runBgTask, setData, redisCacheSet_nonempty _ _ _ _ _ _ hk]
  cases envBg.setErr <;> rfl

lemma GetHit_keylen0 (env : Env) (c : CacheContext) (key : String) (hk : key.length = 0) :
    GetHit env c key = ⟨.ret ("", false, none), 0, 0, [], []⟩ := by
  simp [GetHit, hk]

lemma runBgTask_refresh_eval (envBg : Env) (c : CacheContext) (key : String)
    (hk : key.length ≠ 0) :
    runBgTask envBg (.refresh c key) =
      match envBg.getterResult with
      | .error _ => ⟨true, [], none⟩
      | .ok (d, fast) =>
        ⟨false,
         (match envBg.setErr with
          | some _ => ["cacheProxy refresh setData err"]
          | none => []),
         some ⟨key, ⟨envBg.now, fast, false, d⟩,
           (if d.length = 0 then c.EmptyExpiredTime else c.ExpiredTime), true⟩⟩ := by
  cases hgr : envBg.getterResult with
  | error e =>
    simp only [runBgTask, hgr, getResource_error]
  | ok p =>
    obtain ⟨d, fast⟩ := p
    simp only [runBgTask, hgr, getResource_ok, setData,
      redisCacheSet_nonempty _ _ _ _ _ _ hk]
    cases envBg.setErr <;> rfl

/-- Shape of every store write a `GetHit` call can give rise to, synchronous or
through a detached task run in any environment: it targets the requested key,
stores `IsNil = false` with `Ctime` equal to the clock of whichever side issued
the write, applies the empty/non-empty TTL rule of `RedisCache.Set`, and runs
under the detached `context.Background()`. -/
lemma allWrites_shape (env envBg : Env) (c : CacheContext) (key : String) :
    ∀ w ∈ (GetHit env c key).allWrites envBg,
      w.key = key ∧ w.value.IsNil = false ∧
      (w.value.Ctime = env.now ∨ w.value.Ctime = envBg.now) ∧
      w.ttl = (if w.value.Data.length = 0 then c.EmptyExpiredTime else c.ExpiredTime) ∧
      w.detachedCtx = true := by
  intro w hw
  by_cases hk : key.length = 0
  · rw [GetHit_keylen0 env c key hk] at hw
    simp [GetHitOut.allWrites] at hw
  · cases hfb : c.NeedForceRefresh with
    | true =>
      rw [GetHit_force env c key hk hfb] at hw
      cases hgr : env.getterResult with
      | error e =>
        rw [hgr, getResource_error] at hw
        simp [GetHitOut.allWrites] at hw
      | ok p =>
        obtain ⟨d, fast⟩ := p
        rw [hgr, getResource_ok] at hw
        cases hse : env.setErr with
        | none =>
          rw [hse] at hw
          simp [GetHitOut.allWrites] at hw
          subst hw
          exact ⟨rfl, rfl, Or.inl rfl, rfl, rfl⟩
        | some e =>
          rw [hse] at hw
          simp [GetHitOut.allWrites] at hw
          subst hw
          exact ⟨rfl, rfl, Or.inl rfl, rfl, rfl⟩
    | false =>
      cases hr : env.reply with
      | redisNil =>
        rw [GetHit_miss env c key hk hfb hr] at hw
        cases hgr : env.getterResult with
        | error e =>
          rw [hgr, getResource_error] at hw
          simp [GetHitOut.allWrites] at hw
        | ok p =>
          obtain ⟨d, fast⟩ := p
          rw [hgr, getResource_ok] at hw
          simp [GetHitOut.allWrites, runBgTask_write_eval envBg c key d fast hk] at hw
          subst hw
          exact ⟨rfl, rfl, Or.inr rfl, rfl, rfl⟩
      | failure e =>
        rw [GetHit_readErr env c key e hk hfb (by simp [redisCacheGet, hr])] at hw
        simp [GetHitOut.allWrites] at hw
      | value dec =>
        cases dec with
        | error e =>
          rw [GetHit_readErr env c key e hk hfb (by simp [redisCacheGet, hr])] at hw
          simp [GetHitOut.allWrites] at hw
        | ok sv =>
          rw [GetHit_hit env c key sv hk hfb hr] at hw
          cases hc : c.NeedCacheRefresh with
          | false =>
            simp [hc, GetHitOut.allWrites] at hw
          | true =>
            cases hex : sv.IsExpire c.RefreshOffset c.FastRefreshOffset env.now with
            | false =>
              simp [hc, hex, GetHitOut.allWrites] at hw
            | true =>
              simp only [hc, hex, if_pos rfl, if_true] at hw
              rw [GetHitOut.allWrites] at hw
              simp only [List.nil_append, List.map_cons, List.map_nil,
                runBgTask_refresh_eval envBg c key hk] at hw
              cases hgr : envBg.getterResult with
              | error e =>
                rw [hgr] at hw
                simp at hw
              | ok p =>
                obtain ⟨d, fast⟩ := p
                rw [hgr] at hw
                simp at hw
                subst hw
                exact ⟨rfl, rfl, Or.inr rfl, rfl, rfl⟩

/-! Helper lemmas: runs of the singleflight trace model. -/

lemma sfFoldArrives (g : Except Err (String × Bool)) (cs : List Nat) :
    ∀ (l : List Nat) (k : Nat) (ds : List (Nat × PanicOr (String × Bool × Option Err))),
      List.foldl (sfStep g) ⟨some l, k, ds⟩ (cs.map .arrive) = ⟨some (l ++ cs), k, ds⟩ := by
  induction cs with
  | nil => intro l k ds; simp
  | cons c cs ih =>
    intro l k ds
    simp only [List.map_cons, List.foldl_cons, sfStep]
    rw [ih]
    simp

lemma sfRunTrace_stampede (g : Except Err (String × Bool)) (c0 : Nat) (rest : List Nat) :
    sfRunTrace g (stampedeTrace (c0 :: rest)) =
      ⟨none, 1, (c0 :: rest).map (fun c => (c, getResource g))⟩ := by
  unfold sfRunTrace stampedeTrace
  rw [List.foldl_append]
  simp only [List.map_cons, List.foldl_cons, sfStep]
  rw [sfFoldArrives]
  simp [sfStep]

/-- C2: the claim says a getter error on the critical path (force refresh, or
store miss) is returned to the caller with empty payload and `wasHit = false`.
The code instead panics: `getResource` executes `res := val.(string)` before
inspecting the error, and `val` is nil whenever the getter errored. Evaluated
here on both critical paths for key `"k"` with a failing getter: the outcome is
a panic, not an error return. -/
theorem claim_C2_origin_error_panics :
    GetHit ⟨.redisNil, .error (.msg "origin down"), none, 10⟩
        ⟨true, false, 0, 0, 60, 5⟩ "k" =
      ⟨.panic assertionPanicMsg, 0, 1, [], []⟩ ∧
    GetHit ⟨.redisNil, .error (.msg "origin down"), none, 10⟩
        ⟨false, false, 0, 0, 60, 5⟩ "k" =
      ⟨.panic assertionPanicMsg, 1, 1, [], []⟩ := by
  decide

/-- C3: the claim says a stale hit under `allowBackgroundRefresh` returns the
cached payload (`wasHit = true`) and any error of the detached refresh is only
logged. The first conjunct shows the stale-hit service and the spawned refresh
task; the second shows that when the background getter errors the detached task
does not log-and-continue but panics (an unrecovered panic in a goroutine
terminates the Go process), again via the nil type assertion in
`getResource`. -/
theorem claim_C3_bg_refresh_panics :
    GetHit ⟨.value (.ok ⟨1, false, false, "old"⟩), .ok ("irrelevant", false), none, 100⟩
        ⟨false, true, 1, 1, 60, 5⟩ "k" =
      ⟨.ret ("old", true, none), 1, 0, [],
        [.refresh ⟨false, true, 1, 1, 60, 5⟩ "k"]⟩ ∧
    runBgTask ⟨.redisNil, .error (.msg "origin down"), none, 101⟩
        (.refresh ⟨false, true, 1, 1, 60, 5⟩ "k") = ⟨true, [], none⟩ := by
  decide

/-- C6: `IsExpire` returns false when `Ctime` is the zero time regardless of
the offsets; otherwise it selects the fast offset exactly when
`NeedFastRequery` is set and returns true iff `Ctime + offset` is before
`now`. -/
theorem claim_C6_isExpire (v : StringView) (normalOffset fastOffset now : Int) :
    (v.Ctime = 0 → v.IsExpire normalOffset fastOffset now = false) ∧
    (v.Ctime ≠ 0 →
      (v.IsExpire normalOffset fastOffset now = true ↔
        v.Ctime + (if v.NeedFastRequery then fastOffset else normalOffset) < now)) := by
  constructor
  · intro h; simp [StringView.IsExpire, h]
  · intro h; simp [StringView.IsExpire, h]

/-- C6 witness: a value written at time 5 with the fast-requery flag set is
already expired at time 50 under fast offset 1 (even though the normal offset
100 has not elapsed). -/
theorem claim_C6_isExpire_witness :
    (⟨5, true, false, "x"⟩ : StringView).IsExpire 100 1 50 = true :=
  ((claim_C6_isExpire ⟨5, true, false, "x"⟩ 100 1 50).2 (by decide)).mpr (by decide)

/-- C8 counterexample: the claim says no exposed operation turns an empty key
into an error, but `Remove` on the empty key returns `ErrInvalidKey`. -/
theorem claim_C8_counterexample :
    proxyRemove (.ok 0) "" = some .invalidKey ∧
    some Err.invalidKey ≠ (none : Option Err) := by
  decide

/-- C8 (amended): `getHit` on the empty key returns `("", false, nil)` without
reading the store, invoking the getter, writing, or spawning any task; `Set`
and `Remove`, however, reject the empty key with `ErrInvalidKey`. -/
theorem claim_C8_empty_key (env : Env) (c : CacheContext) (v : String) (r : DelReply) :
    GetHit env c "" = ⟨.ret ("", false, none), 0, 0, [], []⟩ ∧
    proxySet env c "" v = (some .invalidKey, none) ∧
    proxyRemove r "" = some .invalidKey := by
  exact ⟨GetHit_empty env c, rfl, rfl⟩

/-- C9: on a store hit with `NeedCacheRefresh = false` the cached payload is
returned with `wasHit = true` and nothing else happens: no origin call, no
background task, no write — for every current time and every offset pair, so
staleness is never evaluated and a stale-by-offset value is served
unchanged. -/
theorem claim_C9_hit_no_staleness (env : Env) (c : CacheContext) (key : String)
    (sv : StringView) (hk : key.length ≠ 0) (hf : c.NeedForceRefresh = false)
    (hc : c.NeedCacheRefresh = false) (hr : env.reply = .value (.ok sv)) :
    GetHit env c key = ⟨.ret (sv.Data, true, none), 1, 0, [], []⟩ := by
  rw [GetHit_hit env c key sv hk hf hr]
  simp [hc]

/-- C9 witness: a value written at time 1 that is long stale at time 1000000
under offsets 1 is still served unchanged with `wasHit = true`, with no origin
call and no background task, because `NeedCacheRefresh` is false. -/
theorem claim_C9_witness :
    GetHit ⟨.value (.ok ⟨1, false, false, "cached"⟩), .ok ("fresh", false), none, 1000000⟩
        ⟨false, false, 1, 1, 60, 5⟩ "k" =
      ⟨.ret ("cached", true, none), 1, 0, [], []⟩ :=
  claim_C9_hit_no_staleness _ _ _ _ (by decide) rfl rfl rfl

/-- C4: on a store miss (`redis.Nil`, surfaced as `isAbsent` with no record)
without force refresh, when the getter succeeds, `GetHit` fetches synchronously
(one origin call), returns the fetched payload with `wasHit = false`, performs
no synchronous write and spawns exactly one detached write-back task; for every
environment that task may run in, it never panics, attempts exactly the
expected store write under the detached context, and a write failure only
produces a log line (the caller's already-fixed result does not mention it). -/
theorem claim_C4_miss_path (env : Env) (c : CacheContext) (key d : String) (fast : Bool)
    (hk : key.length ≠ 0) (hf : c.NeedForceRefresh = false) (hr : env.reply = .redisNil)
    (hg : env.getterResult = .ok (d, fast)) :
    GetHit env c key = ⟨.ret (d, false, none), 1, 1, [], [.write c key d fast]⟩ ∧
    (∀ envBg : Env,
      (runBgTask envBg (.write c key d fast)).panicked = false ∧
      (runBgTask envBg (.write c key d fast)).write =
        some ⟨key, ⟨envBg.now, fast, false, d⟩,
          (if d.length = 0 then c.EmptyExpiredTime else c.ExpiredTime), true⟩ ∧
      (∀ e, envBg.setErr = some e →
        (runBgTask envBg (.write c key d fast)).logs = ["cacheProxy setErr"])) := by
  constructor
  · rw [GetHit_miss env c key hk hf hr, hg, getResource_ok]
  · intro envBg
    rw [runBgTask_write_eval envBg c key d fast hk]
    refine ⟨rfl, rfl, fun e he => by rw [he]⟩

/-- C4 witness: a miss on key `"k"` with a getter returning `"fresh"` yields
`("fresh", wasHit = false)` and one detached write-back task. -/
theorem claim_C4_witness :
    GetHit ⟨.redisNil, .ok ("fresh", false), none, 10⟩ ⟨false, false, 1, 1, 60, 5⟩ "k" =
      ⟨.ret ("fresh", false, none), 1, 1, [],
        [.write ⟨false, false, 1, 1, 60, 5⟩ "k" "fresh" false]⟩ :=
  (claim_C4_miss_path _ _ _ _ _ (by decide) rfl rfl rfl).1

/-- C5 counterexample: the claim says any fetch error under force refresh is
returned to the caller; with a failing getter the call instead panics on the
nil type assertion, and a panic is not an error return. -/
theorem claim_C5_counterexample :
    (GetHit ⟨.redisNil, .error (.msg "boom2"), none, 7⟩
        ⟨true, false, 0, 0, 60, 5⟩ "key1").result = .panic assertionPanicMsg ∧
    (PanicOr.panic assertionPanicMsg ≠
      PanicOr.ret (("", false, some (Err.msg "boom2")) : String × Bool × Option Err)) := by
  decide

/-- C5 (amended): under force refresh on a non-empty key the store is never
read and no background task is spawned; the getter runs synchronously exactly
once; when it succeeds, the result is written synchronously under the detached
`context.Background()` with the TTL rule applied, a write error is returned to
the caller, and otherwise the fresh payload is returned with `wasHit = false`.
(A fetch error is not returned — the caller panics; see the
counterexample.) -/
theorem claim_C5_force_refresh (env : Env) (c : CacheContext) (key : String)
    (hk : key.length ≠ 0) (hf : c.NeedForceRefresh = true) :
    (GetHit env c key).storeReads = 0 ∧
    (GetHit env c key).getterCalls = 1 ∧
    (GetHit env c key).bgTasks = [] ∧
    (∀ d fast, env.getterResult = .ok (d, fast) →
      (GetHit env c key).syncWrites =
        [⟨key, ⟨env.now, fast, false, d⟩,
          (if d.length = 0 then c.EmptyExpiredTime else c.ExpiredTime), true⟩] ∧
      (env.setErr = none → (GetHit env c key).result = .ret (d, false, none)) ∧
      (∀ e, env.setErr = some e →
        (GetHit env c key).result = .ret ("", false, some e))) := by
  have hG := GetHit_force env c key hk hf
  cases hgr : env.getterResult with
  | error e0 =>
    rw [hgr, getResource_error] at hG
    rw [hG]
    refine ⟨rfl, rfl, rfl, ?_⟩
    intro d fast h
    exact Except.noConfusion h
  | ok p =>
    obtain ⟨d0, fast0⟩ := p
    rw [hgr, getResource_ok] at hG
    cases hse : env.setErr with
    | none =>
      rw [hse] at hG
      rw [hG]
      refine ⟨rfl, rfl, rfl, ?_⟩
      intro d fast h
      injection h with h2
      injection h2 with hd hfa
      subst hd
      subst hfa
      refine ⟨rfl, fun _ => rfl, ?_⟩
      intro e he
      exact Option.noConfusion he
    | some e0 =>
      rw [hse] at hG
      rw [hG]
      refine ⟨rfl, rfl, rfl, ?_⟩
      intro d fast h
      injection h with h2
      injection h2 with hd hfa
      subst hd
      subst hfa
      refine ⟨rfl, ?_, ?_⟩
      · intro he; exact Option.noConfusion he
      · intro e he
        injection he with he2
        rw [he2]

/-- C5 witness: force refresh on key `"kk"` with a fast-requery getter result
`"fresh"` performs the synchronous detached write with the non-empty TTL and
returns the fresh payload. -/
theorem claim_C5_witness :
    (GetHit ⟨.redisNil, .ok ("fresh", true), none, 11⟩
        ⟨true, true, 1, 1, 60, 5⟩ "kk").syncWrites =
      [⟨"kk", ⟨11, true, false, "fresh"⟩,
        (if ("fresh" : String).length = 0 then 5 else 60), true⟩] ∧
    (GetHit ⟨.redisNil, .ok ("fresh", true), none, 11⟩
        ⟨true, true, 1, 1, 60, 5⟩ "kk").result = .ret ("fresh", false, none) := by
  have h := (claim_C5_force_refresh ⟨.redisNil, .ok ("fresh", true), none, 11⟩
      ⟨true, true, 1, 1, 60, 5⟩ "kk" (by decide) rfl).2.2.2 "fresh" true rfl
  exact ⟨h.1, h.2.1 rfl⟩

/-- C1 counterexample: the claim says every concurrent caller on a cold key
receives the shared execution's payload and error; when the shared getter
execution errors, no caller receives an error return at all — each one's
`getResource` panics on the nil type assertion (identically). -/
theorem claim_C1_counterexample :
    (sfRunTrace (.error (.msg "boom")) (stampedeTrace [0, 1])).delivered =
      [(0, .panic assertionPanicMsg), (1, .panic assertionPanicMsg)] ∧
    (PanicOr.panic assertionPanicMsg ≠
      PanicOr.ret (("", false, some (Err.msg "boom")) : String × Bool × Option Err)) := by
  decide

/-- C1 (amended): for any nonempty set of callers that arrive on a cold key
while one origin execution is in flight, the origin getter runs exactly once,
every caller receives the very same outcome of its `getResource` call (the
same payload with no error when the getter succeeds; the identical panic when
it fails), the key is free again after completion, and each caller's `GetHit`
(no force refresh, `allowBackgroundRefresh` off, cold store) turns that shared
outcome into its return value — so all callers return the same payload and the
same error. -/
theorem claim_C1_coalescing (g : Except Err (String × Bool)) (c0 : Nat) (rest : List Nat) :
    (sfRunTrace g (stampedeTrace (c0 :: rest))).originCalls = 1 ∧
    (sfRunTrace g (stampedeTrace (c0 :: rest))).inflight = none ∧
    (sfRunTrace g (stampedeTrace (c0 :: rest))).delivered.length = (c0 :: rest).length ∧
    (∀ x ∈ (sfRunTrace g (stampedeTrace (c0 :: rest))).delivered,
      ∀ y ∈ (sfRunTrace g (stampedeTrace (c0 :: rest))).delivered, x.2 = y.2) ∧
    (∀ (env : Env) (c : CacheContext) (key : String),
      env.getterResult = g → env.reply = .redisNil → key.length ≠ 0 →
      c.NeedForceRefresh = false → c.NeedCacheRefresh = false →
      ∀ x ∈ (sfRunTrace g (stampedeTrace (c0 :: rest))).delivered,
        (GetHit env c key).result =
          (match x.2 with
           | .panic m => .panic m
           | .ret (_, _, some e) => .ret ("", false, some e)
           | .ret (d, _, none) => .ret (d, false, none))) := by
  rw [sfRunTrace_stampede]
  refine ⟨rfl, rfl, by simp, ?_, ?_⟩
  · intro x hx y hy
    simp only [List.mem_map] at hx hy
    obtain ⟨a, _, rfl⟩ := hx
    obtain ⟨b, _, rfl⟩ := hy
    rfl
  · intro env c key hg hr hk hf hc x hx
    simp only [List.mem_map] at hx
    obtain ⟨a, _, rfl⟩ := hx
    rw [GetHit_miss env c key hk hf hr, hg]
    cases g with
    | error e => rw [getResource_error]
    | ok p =>
      obtain ⟨d, fast⟩ := p
      rw [getResource_ok]

/-- C1 witness: three concurrent callers on cold key `"k"` whose shared getter
execution returns `"v"`: applying the coalescing theorem yields the `GetHit`
return value `("v", wasHit = false, no error)` for a caller. -/
theorem claim_C1_witness :
    (GetHit ⟨.redisNil, .ok ("v", false), none, 3⟩
        ⟨false, false, 1, 1, 60, 5⟩ "k").result = .ret ("v", false, none) := by
  have h := (claim_C1_coalescing (.ok ("v", false)) 0 [1, 2]).2.2.2.2
      ⟨.redisNil, .ok ("v", false), none, 3⟩ ⟨false, false, 1, 1, 60, 5⟩ "k"
      rfl rfl (by decide) rfl rfl
      (0, getResource (.ok ("v", false))) (by decide)
  simpa using h

/-- C7 counterexample: the claim quantifies over every key, but `Set` on the
empty key performs no write at all and returns `ErrInvalidKey`. -/
theorem claim_C7_counterexample :
    proxySet ⟨.redisNil, .ok ("", false), none, 5⟩ ⟨false, false, 0, 0, 60, 5⟩ "" "x" =
      (some .invalidKey, none) ∧
    some Err.invalidKey ≠ (none : Option Err) := by
  decide

/-- C7 (amended): for every non-empty key, `Set` writes through directly with a
stored value `Ctime = now`, `NeedFastRequery = false`, `IsNil = false`, TTL
`EmptyExpiredTime` iff the payload is empty, under the caller's own context;
`Remove` returns no error whatever the `DEL` removal count is — in particular
for a non-existent key (count 0); and the empty/non-empty TTL rule holds
uniformly for every write any `GetHit` issues, synchronous or background. An
empty key is rejected by `Set` with `ErrInvalidKey`. -/
theorem claim_C7_set_remove (env : Env) (c : CacheContext) (key v : String)
    (hk : key.length ≠ 0) :
    proxySet env c key v =
      (env.setErr, some ⟨key, ⟨env.now, false, false, v⟩,
        (if v.length = 0 then c.EmptyExpiredTime else c.ExpiredTime), false⟩) ∧
    (∀ n : Nat, proxyRemove (.ok n) key = none) ∧
    (∀ (env2 envBg : Env) (c2 : CacheContext) (k2 : String),
      ∀ w ∈ (GetHit env2 c2 k2).allWrites envBg,
        w.ttl = (if w.value.Data.length = 0 then c2.EmptyExpiredTime else c2.ExpiredTime)) := by
  refine ⟨?_, ?_, ?_⟩
  · rw [proxySet, setData, redisCacheSet_nonempty _ _ _ _ _ _ hk]
  · intro n
    simp [proxyRemove, redisCacheRemove, Nat.le_zero, hk]
  · intro env2 envBg c2 k2 w hw
    exact (allWrites_shape env2 envBg c2 k2 w hw).2.2.2.1

/-- C7 witness: `Set` of the empty payload on key `"k"` at time 42 writes
`⟨42, false, false, ""⟩` with the empty-payload TTL, and surfaces the store's
write error to the caller. -/
theorem claim_C7_witness :
    proxySet ⟨.redisNil, .ok ("", false), some (.msg "w"), 42⟩
        ⟨false, false, 0, 0, 60, 5⟩ "k" "" =
      (some (.msg "w"), some ⟨"k", ⟨42, false, false, ""⟩,
        (if ("" : String).length = 0 then 5 else 60), false⟩) :=
  (claim_C7_set_remove ⟨.redisNil, .ok ("", false), some (.msg "w"), 42⟩
      ⟨false, false, 0, 0, 60, 5⟩ "k" "" (by decide)).1

/-- C10: every store write the proxy performs — synchronous or from a detached
task of `GetHit`, and the write of `Set` — stores `IsNil = false` and
`Ctime` equal to the writing side's current time; when both clocks are nonzero
every written `Ctime` is nonzero, so a value the proxy wrote is never reported
absent and its staleness is always computable. -/
theorem claim_C10_write_invariant (env envBg : Env) (c : CacheContext) (key v : String) :
    (∀ w ∈ (GetHit env c key).allWrites envBg,
      w.value.IsNil = false ∧ (w.value.Ctime = env.now ∨ w.value.Ctime = envBg.now)) ∧
    (∀ w : WriteOp, (proxySet env c key v).2 = some w →
      w.value.IsNil = false ∧ w.value.Ctime = env.now) ∧
    (env.now ≠ 0 → envBg.now ≠ 0 →
      ∀ w ∈ (GetHit env c key).allWrites envBg, w.value.Ctime ≠ 0) := by
  refine ⟨?_, ?_, ?_⟩
  · intro w hw
    exact ⟨(allWrites_shape env envBg c key w hw).2.1,
      (allWrites_shape env envBg c key w hw).2.2.1⟩
  · intro w hw
    by_cases hk : key.length = 0
    · rw [proxySet, setData, redisCacheSet] at hw
      rw [if_pos (Nat.le_zero.mpr hk)] at hw
      exact Option.noConfusion hw
    · rw [proxySet, setData, redisCacheSet_nonempty _ _ _ _ _ _ hk] at hw
      injection hw with h2
      subst h2
      exact ⟨rfl, rfl⟩
  · intro h1 h2 w hw
    rcases (allWrites_shape env envBg c key w hw).2.2.1 with h | h <;> rw [h] <;> assumption

/-- C10 witness: the force-refresh write of `"d"` on key `"k"` at time 9
(background clock 3) stores a view with `IsNil = false` and `Ctime` equal to
the synchronous clock. -/
theorem claim_C10_witness :
    (⟨9, false, false, "d"⟩ : StringView).IsNil = false ∧
    ((⟨9, false, false, "d"⟩ : StringView).Ctime = 9 ∨
      (⟨9, false, false, "d"⟩ : StringView).Ctime = 3) :=
  (claim_C10_write_invariant ⟨.redisNil, .ok ("d", false), none, 9⟩
      ⟨.redisNil, .ok ("d", false), none, 3⟩ ⟨true, false, 1, 1, 60, 5⟩ "k" "v").1
    ⟨"k", ⟨9, false, false, "d"⟩, 60, true⟩ (by decide)

end CacheProxySpec
